import Mathlib

/-!
Shallow embedding of the client-side state logic of the BloomWatch
frontend: the `ProjectView` WebSocket message reconciler (ephemeral
actions, zoom history, error list), the upload drop handler, the
`LayerList` connection-phase inference, and the WebSocket reconnection
policy.  Coordinates (JS numbers) are modelled as `Int`; string-valued
discriminators (`status`) stay strings as in the source; JS truthiness
of optional strings is made explicit.  The single-threaded event loop is
modelled by a pure step function `processMessage : State → InMessage →
State`; React `setState` updater functions enqueued before an exception
is thrown still run, so the model applies them in program order and the
outer `try`/`catch` is modelled by the step function returning the
error-reporting state instead of diverging.
-/

namespace BloomWatch

/-- Truthiness of an optional JS string: `undefined` and `""` are falsy. -/
def truthyStr : Option String → Bool
  | none => false
  | some s => s ≠ ""

/-- `updates` object of an ephemeral action; `style_json` records the
truthiness of the `style_json` field. -/
structure Updates where
  style_json : Bool
deriving DecidableEq, Repr

/-- EphemeralAction as received over the socket. `bounds` is a raw JSON
array (validated for length 4 by the handler); `updates` may be absent
on the wire, in which case accessing `updates.style_json` throws. -/
structure EphemeralAction where
  action_id : String
  status : String
  bounds : Option (List Int) := none
  error_message : Option String := none
  updates : Option Updates := none
deriving DecidableEq, Repr

/-- An inbound WebSocket message after `JSON.parse`: either it failed to
parse / had an unexpected shape (`malformed`), or it is a non-ephemeral
chat message, or an ephemeral action (discriminated by `ephemeral === true`). -/
inductive InMessage
  | malformed
  | chat
  | action (a : EphemeralAction)
deriving DecidableEq, Repr

/-- ErrorEntry from `frontend-types`; `id` is modelled by a fresh counter
(the source concatenates `Date.now()` with a random suffix). -/
structure ErrorEntry where
  id : Nat
  message : String
  timestamp : Nat
  shouldOverrideMessages : Bool
deriving DecidableEq, Repr

/-- The ephemeral UI state owned by `ProjectView`, together with the
observable effects the reconciler performs: `invalidateMapDataCount`
counts map-document cache invalidations, `fitBoundsCount` counts zoom
commands, `toasts` records user-visible toast notifications, `timers`
records scheduled error auto-dismiss callbacks as (fire time, error id),
`mapView` is the current map camera bounds when a map handle exists. -/
structure State where
  errors : List ErrorEntry := []
  activeActions : List EphemeralAction := []
  zoomHistory : List (List Int) := []
  zoomHistoryIndex : Int := -1
  processedBoundsActionIds : List String := []
  mapView : Option (List Int) := none
  invalidateMapDataCount : Nat := 0
  fitBoundsCount : Nat := 0
  toasts : List String := []
  timers : List (Nat × Nat) := []
  now : Nat := 0
  nextId : Nat := 0
deriving DecidableEq, Repr

/-- `addError` helper: bails out if an entry with the same message is
already present; otherwise appends a fresh entry, emits a toast unless
`shouldOverrideMessages`, and schedules a 30-second auto-dismiss timer. -/
def addError (s : State) (message : String) (shouldOverrideMessages : Bool) : State :=
  if ∃ e ∈ s.errors, e.message = message then s
  else
    let newError : ErrorEntry :=
      { id := s.nextId, message := message, timestamp := s.now,
        shouldOverrideMessages := shouldOverrideMessages }
    { s with
      errors := s.errors ++ [newError]
      nextId := s.nextId + 1
      toasts := if shouldOverrideMessages then s.toasts else s.toasts ++ [message]
      timers := s.timers ++ [(s.now + 30000, newError.id)] }

/-- The `setTimeout` callback scheduled by `addError`: removes the entry
with the given id from the error list. -/
def errorTimeout (s : State) (errorId : Nat) : State :=
  { s with errors := s.errors.filter (fun e => e.id ≠ errorId) }

/-- The status-dependent tail of the ephemeral-action handler: an active
action is appended to `activeActions`; a completed action is filtered
out of `activeActions`, then `action.updates.style_json` is read — if
`updates` is absent that access throws and the outer catch adds the
generic error entry; if `style_json` is truthy the map document cache is
invalidated. -/
def stateStatusEffects (s : State) (action : EphemeralAction) : State :=
  if action.status = "active" then
    { s with activeActions := s.activeActions ++ [action] }
  else if action.status = "completed" then
    let s1 := { s with
      activeActions := s.activeActions.filter (fun a => a.action_id ≠ action.action_id) }
    match action.updates with
    | none => addError s1 "Failed to process update from server." false
    | some u =>
      if u.style_json then
        { s1 with invalidateMapDataCount := s1.invalidateMapDataCount + 1 }
      else s1
  else s

/-- The bounds-zoom step of the ephemeral-action handler.  Returns
`none` when the handler early-returns because this `action_id` already
triggered a zoom; otherwise returns the state after the (possible) zoom:
when the action is active with a 4-element bounds array and a map handle
exists and the id is new, the id is recorded, the zoom history is
truncated to `index + 1` entries and extended by the pre-zoom camera
bounds then the target bounds, the index advances by 2, and the camera
animates to the target. -/
def zoomStep (s : State) (action : EphemeralAction) : Option State :=
  match action.bounds, s.mapView with
  | some b, some currentBoundsArray =>
    if b.length = 4 ∧ action.status = "active" then
      if action.action_id ∈ s.processedBoundsActionIds then none
      else
        some { s with
          processedBoundsActionIds := s.processedBoundsActionIds ++ [action.action_id]
          zoomHistory :=
            s.zoomHistory.take (s.zoomHistoryIndex + 1).toNat ++ [currentBoundsArray, b]
          zoomHistoryIndex := s.zoomHistoryIndex + 2
          mapView := some b
          fitBoundsCount := s.fitBoundsCount + 1 }
    else some s
  | _, _ => some s

/-- One step of the message-processing effect in `ProjectView`: malformed
payloads are caught and surfaced as a generic error; non-ephemeral chat
messages invalidate the map document; ephemeral actions with a truthy
`error_message` only add one overriding error entry; otherwise the zoom
step runs (possibly early-returning), then the status-dependent effects. -/
def processMessage (s : State) (m : InMessage) : State :=
  match m with
  | .malformed => addError s "Failed to process update from server." false
  | .chat => { s with invalidateMapDataCount := s.invalidateMapDataCount + 1 }
  | .action action =>
    if truthyStr action.error_message then
      addError s (action.error_message.getD "") true
    else
      match zoomStep s action with
      | none => s
      | some s1 => stateStatusEffects s1 action

/-- Processing a whole inbound sequence in arrival order. -/
def processMessages (s : State) (ms : List InMessage) : State :=
  ms.foldl processMessage s

/-! ## Upload queue (dropzone `onDrop` / `onDropRejected`) -/

/-- A file handed to the drop handler. -/
structure DroppedFile where
  name : String
  size : Nat
deriving DecidableEq, Repr

/-- UploadingFile entry created on drop; ids are modelled by a counter
(the source concatenates file name, `Date.now()` and a random suffix). -/
structure UploadingFile where
  id : Nat
  fileName : String
  progress : Nat
  status : String
deriving DecidableEq, Repr

/-- Upload-queue state plus the toast notifications emitted. -/
structure UploadState where
  uploadingFiles : List UploadingFile := []
  toasts : List String := []
  nextId : Nat := 0
  hasVersionId : Bool := true
deriving DecidableEq, Repr

/-- The fixed size ceiling: 500MB in bytes. -/
def maxFileSize : Nat := 500 * 1024 * 1024

/-- Toast text emitted for a file over the size ceiling. -/
def sizeToastMessage (name : String) : String :=
  "File \"" ++ name ++ "\" is too large. Files over 500MB aren\x27t supported yet."

/-- Extensions permitted by the dropzone `accept` map, deduplicated in
insertion order as `allowedExtensions` computes them. -/
def allowedExtensions : List String :=
  [".geojson", ".json", ".kml", ".kmz", ".tif", ".tiff", ".jpg", ".jpeg",
   ".png", ".gpkg", ".fgb", ".dem", ".zip", ".las", ".laz", ".csv"]

/-- Message passed to `addError` by `onDropRejected` for a file the
dropzone rejected by type: this is the notification that lists the
permitted extensions. -/
def rejectedToastMessage (name : String) : String :=
  "Cannot upload \"" ++ name ++ "\": Allowed extensions: " ++
    String.intercalate ", " allowedExtensions

/-- The `onDrop` callback: does nothing without a version id or files;
each file over `maxFileSize` produces one too-large toast and is
filtered out before the queue; the remaining files enter the queue at
progress 0 with status "uploading" (and their uploads start). -/
def onDrop (s : UploadState) (acceptedFiles : List DroppedFile) : UploadState :=
  if s.hasVersionId = false ∨ acceptedFiles = [] then s
  else
    let oversize := acceptedFiles.filter (fun f => maxFileSize < f.size)
    let validFiles := acceptedFiles.filter (fun f => ¬ maxFileSize < f.size)
    let s1 := { s with toasts := s.toasts ++ oversize.map (fun f => sizeToastMessage f.name) }
    if validFiles = [] then s1
    else
      let newUploadingFiles := validFiles.enum.map (fun p =>
        { id := s1.nextId + p.1, fileName := p.2.name, progress := 0,
          status := "uploading" : UploadingFile })
      { s1 with
        uploadingFiles := s1.uploadingFiles ++ newUploadingFiles
        nextId := s1.nextId + validFiles.length }

/-! ## LayerList connection-phase inference -/

/-- The fields of a polled connection record the phase label reads. -/
structure PostgresConnectionDetails where
  is_documented : Bool
  last_error_text : Option String := none
  processed_tables_count : Option Nat := none
  table_count : Option Nat := none
deriving DecidableEq, Repr

/-- The phase-label IIFE in the LayerList sources section: counts default
to 0; both zero reads "Connecting...", processed below total reads
"Querying tables...", otherwise "Summarizing...". -/
def phaseLabel (c : PostgresConnectionDetails) : String :=
  let processed := c.processed_tables_count.getD 0
  let total := c.table_count.getD 0
  if processed = 0 ∧ total = 0 then "Connecting..."
  else if processed < total then "Querying tables..."
  else "Summarizing..."

/-- Which row the sources section renders for a connection: the error row
when `last_error_text` is truthy, the progress row with its inferred
phase while not yet documented, otherwise the plain documented row. -/
def sourcePhase (c : PostgresConnectionDetails) : Option String :=
  if truthyStr c.last_error_text then none
  else if c.is_documented then none
  else some (phaseLabel c)

/-! ## WebSocket reconnection policy -/

/-- The backoff ladder passed to `useWebSocket`, in milliseconds. -/
def backoffMs : List Nat := [30, 1000, 5000, 15000, 50000]

/-- `reconnectInterval` option: index the ladder by the attempt count,
clamped to the last entry. -/
def reconnectInterval (attempt : Nat) : Nat :=
  backoffMs.getD (min attempt (backoffMs.length - 1)) 0

/-- `reconnectAttempts` option: 24 hours of 30-second attempts. -/
def reconnectAttempts : Nat := 2880

/-! ## Helper lemmas -/

theorem addError_activeActions (s : State) (m : String) (o : Bool) :
    (addError s m o).activeActions = s.activeActions := by
  unfold addError
  split <;> rfl

theorem addError_invalidateMapDataCount (s : State) (m : String) (o : Bool) :
    (addError s m o).invalidateMapDataCount = s.invalidateMapDataCount := by
  unfold addError
  split <;> rfl

theorem zoomStep_not_active (s : State) (a : EphemeralAction)
    (hst : a.status ≠ "active") : zoomStep s a = some s := by
  unfold zoomStep
  rcases a.bounds with _ | b <;> rcases s.mapView with _ | cur <;> simp [hst]

theorem zoomStep_some_activeActions {s s' : State} {a : EphemeralAction}
    (h : zoomStep s a = some s') : s'.activeActions = s.activeActions := by
  unfold zoomStep at h
  split at h
  · split at h
    · split at h
      · exact absurd h (by simp)
      · injection h with h
        subst h
        rfl
    · injection h with h
      subst h
      rfl
  · injection h with h
    subst h
    rfl

theorem stateStatusEffects_completed_activeActions (s : State) (a : EphemeralAction)
    (hst : a.status = "completed") :
    (stateStatusEffects s a).activeActions
      = s.activeActions.filter (fun x => x.action_id ≠ a.action_id) := by
  unfold stateStatusEffects
  rw [hst]
  rcases a.updates with _ | u
  · simp [addError_activeActions]
  · rcases u with ⟨_ | _⟩ <;> simp

/-- Characterization of the full zoom path: a fresh active action with
4-element bounds and an available map handle records its id, truncates
the history at the index, appends the camera snapshot then the target,
advances the index by 2, moves the camera, and appends itself to the
active actions. -/
theorem processMessage_zoom_char (s : State) (a : EphemeralAction) (b cur : List Int)
    (herr : a.error_message = none) (hst : a.status = "active")
    (hb : a.bounds = some b) (hlen : b.length = 4)
    (hmap : s.mapView = some cur)
    (hnew : a.action_id ∉ s.processedBoundsActionIds) :
    processMessage s (.action a)
      = { s with
          processedBoundsActionIds := s.processedBoundsActionIds ++ [a.action_id]
          zoomHistory := s.zoomHistory.take (s.zoomHistoryIndex + 1).toNat ++ [cur, b]
          zoomHistoryIndex := s.zoomHistoryIndex + 2
          mapView := some b
          fitBoundsCount := s.fitBoundsCount + 1
          activeActions := s.activeActions ++ [a] } := by
  simp only [processMessage]
  rw [herr]
  simp only [truthyStr, Bool.false_eq_true, if_false]
  unfold zoomStep
  rw [hb, hmap]
  simp only [hlen, hst, and_self, if_true, hnew, if_false, ite_false]
  unfold stateStatusEffects
  rw [hst]
  simp

/-- A fresh-bounds-eligible active action whose id is already in the
processed set early-returns: the whole state is unchanged. -/
theorem processMessage_noop_of_processed (s : State) (a : EphemeralAction) (b cur : List Int)
    (herr : a.error_message = none) (hst : a.status = "active")
    (hb : a.bounds = some b) (hlen : b.length = 4)
    (hmap : s.mapView = some cur)
    (hdone : a.action_id ∈ s.processedBoundsActionIds) :
    processMessage s (.action a) = s := by
  simp only [processMessage]
  rw [herr]
  simp only [truthyStr, Bool.false_eq_true, if_false]
  unfold zoomStep
  rw [hb, hmap]
  simp [hlen, hst, hdone]

theorem processMessage_completed_activeActions (s : State) (c : EphemeralAction)
    (herr : c.error_message = none) (hst : c.status = "completed") :
    (processMessage s (.action c)).activeActions
      = s.activeActions.filter (fun x => x.action_id ≠ c.action_id) := by
  simp only [processMessage]
  rw [herr]
  simp only [truthyStr, Bool.false_eq_true, if_false]
  rw [zoomStep_not_active s c (by simp [hst])]
  exact stateStatusEffects_completed_activeActions s c hst

theorem processMessage_active_activeActions (s : State) (a : EphemeralAction)
    (herr : a.error_message = none) (hst : a.status = "active") :
    (processMessage s (.action a)).activeActions = s.activeActions
    ∨ (processMessage s (.action a)).activeActions = s.activeActions ++ [a] := by
  simp only [processMessage]
  rw [herr]
  simp only [truthyStr, Bool.false_eq_true, if_false]
  rcases hz : zoomStep s a with _ | s2
  · left
    rfl
  · right
    show (stateStatusEffects s2 a).activeActions = _
    unfold stateStatusEffects
    rw [hst]
    simp [zoomStep_some_activeActions hz]

/-! ## Claim theorems -/

/-- Concrete states used to instantiate the claim theorems. -/
def pushExampleState : State :=
  { zoomHistory := [[0, 0, 1, 1], [0, 0, 2, 2], [0, 0, 3, 3]]
    zoomHistoryIndex := 0
    mapView := some [9, 9, 10, 10] }

/-- The event pushing new bounds D in the C1 scenario. -/
def pushExampleAction : EphemeralAction :=
  { action_id := "d", status := "active", bounds := some [4, 4, 5, 5] }

/-- C1 counterexample: with history [A,B,C] (A=[0,0,1,1], B=[0,0,2,2],
C=[0,0,3,3]), index 0, camera at [9,9,10,10], an event pushing bounds
D=[4,4,5,5] does NOT yield history [A,D] with index 1: the handler
appends the pre-zoom camera snapshot as well, yielding [A, [9,9,10,10],
D] with index 2. -/
theorem event_push_single_entry_counterexample :
    ¬ ((processMessage pushExampleState (.action pushExampleAction)).zoomHistory
          = [[0, 0, 1, 1], [4, 4, 5, 5]]
        ∧ (processMessage pushExampleState (.action pushExampleAction)).zoomHistoryIndex = 1) := by
  decide

/-- C1 (amended): processing an event that pushes new bounds D while the
index is not at the tail first discards every history entry beyond the
current index, then appends TWO entries — the pre-zoom camera snapshot
followed by D — and advances the index by 2; from [A,B,C] with index 0
this yields [A, snapshot, D] with index 2. -/
theorem event_push_truncates_then_appends_two (s : State) (a : EphemeralAction)
    (b cur : List Int)
    (herr : a.error_message = none) (hst : a.status = "active")
    (hb : a.bounds = some b) (hlen : b.length = 4)
    (hmap : s.mapView = some cur)
    (hnew : a.action_id ∉ s.processedBoundsActionIds) :
    (processMessage s (.action a)).zoomHistory
      = s.zoomHistory.take (s.zoomHistoryIndex + 1).toNat ++ [cur, b]
    ∧ (processMessage s (.action a)).zoomHistoryIndex = s.zoomHistoryIndex + 2 := by
  rw [processMessage_zoom_char s a b cur herr hst hb hlen hmap hnew]
  exact ⟨rfl, rfl⟩

/-- Witness for the amended C1 theorem on the concrete [A,B,C] scenario. -/
theorem event_push_truncates_then_appends_two_witness :
    (processMessage pushExampleState (.action pushExampleAction)).zoomHistory
      = [[0, 0, 1, 1], [9, 9, 10, 10], [4, 4, 5, 5]]
    ∧ (processMessage pushExampleState (.action pushExampleAction)).zoomHistoryIndex = 2 := by
  have h := event_push_truncates_then_appends_two pushExampleState pushExampleAction
    [4, 4, 5, 5] [9, 9, 10, 10] rfl rfl rfl rfl rfl (by decide)
  simpa [pushExampleState] using h

/-- C2: of two ephemeral-action events carrying the same `action_id`,
valid 4-element bounds, status active and no error, only the first
triggers a zoom (`fitBoundsCount` increments) and a zoom-history push;
processing the second returns the state after the first completely
unchanged — in particular zoom history, history index and map view are
untouched. -/
theorem duplicate_action_id_zooms_once (s : State) (a1 a2 : EphemeralAction)
    (b1 b2 cur : List Int)
    (herr1 : a1.error_message = none) (herr2 : a2.error_message = none)
    (hst1 : a1.status = "active") (hst2 : a2.status = "active")
    (hb1 : a1.bounds = some b1) (hlen1 : b1.length = 4)
    (hb2 : a2.bounds = some b2) (hlen2 : b2.length = 4)
    (hid : a2.action_id = a1.action_id)
    (hmap : s.mapView = some cur)
    (hnew : a1.action_id ∉ s.processedBoundsActionIds) :
    (processMessage s (.action a1)).fitBoundsCount = s.fitBoundsCount + 1
    ∧ (processMessage s (.action a1)).zoomHistory
        = s.zoomHistory.take (s.zoomHistoryIndex + 1).toNat ++ [cur, b1]
    ∧ processMessage (processMessage s (.action a1)) (.action a2)
        = processMessage s (.action a1) := by
  rw [processMessage_zoom_char s a1 b1 cur herr1 hst1 hb1 hlen1 hmap hnew]
  refine ⟨rfl, rfl, ?_⟩
  exact processMessage_noop_of_processed _ a2 b2 b1 herr2 hst2 hb2 hlen2 rfl
    (by simp [hid])

/-- Witness for C2 at the concrete scenario: the same event delivered
twice zooms once and the second delivery is a complete no-op. -/
theorem duplicate_action_id_zooms_once_witness :
    (processMessage pushExampleState (.action pushExampleAction)).fitBoundsCount = 1
    ∧ processMessage (processMessage pushExampleState (.action pushExampleAction))
        (.action pushExampleAction)
        = processMessage pushExampleState (.action pushExampleAction) := by
  have h := duplicate_action_id_zooms_once pushExampleState pushExampleAction
    pushExampleAction [4, 4, 5, 5] [4, 4, 5, 5] [9, 9, 10, 10]
    rfl rfl rfl rfl rfl rfl rfl rfl rfl rfl (by decide)
  exact ⟨by rw [h.1]; rfl, h.2.2⟩

/-- C9: an ephemeral-action event with status active, valid 4-element
bounds, no error message, an available map-view handle and an
`action_id` already recorded in the processed-bounds set changes no
state at all — the handler returns before the active-actions append. -/
theorem processed_action_id_event_noop (s : State) (a : EphemeralAction)
    (b cur : List Int)
    (herr : a.error_message = none) (hst : a.status = "active")
    (hb : a.bounds = some b) (hlen : b.length = 4)
    (hmap : s.mapView = some cur)
    (hdone : a.action_id ∈ s.processedBoundsActionIds) :
    processMessage s (.action a) = s :=
  processMessage_noop_of_processed s a b cur herr hst hb hlen hmap hdone

/-- Witness for C9: a state whose processed set already holds the id. -/
theorem processed_action_id_event_noop_witness :
    processMessage { pushExampleState with processedBoundsActionIds := ["d"] }
        (.action pushExampleAction)
      = { pushExampleState with processedBoundsActionIds := ["d"] } :=
  processed_action_id_event_noop _ pushExampleAction [4, 4, 5, 5] [9, 9, 10, 10]
    rfl rfl rfl rfl rfl (by decide)

/-- C4: starting from empty ephemeral state (with a map handle at
[0,0,1,1]), the active message for "a1" with bounds [0,0,10,10] followed
by its completed message with a truthy `style_json` update performs
exactly one zoom, invalidates the map-document cache exactly once, and
leaves the active-actions list empty. -/
theorem example_trace_one_zoom_one_invalidation :
    (processMessages { mapView := some [0, 0, 1, 1] }
        [.action { action_id := "a1", status := "active", bounds := some [0, 0, 10, 10] },
         .action { action_id := "a1", status := "completed",
                   updates := some { style_json := true } }]).fitBoundsCount = 1
    ∧ (processMessages { mapView := some [0, 0, 1, 1] }
        [.action { action_id := "a1", status := "active", bounds := some [0, 0, 10, 10] },
         .action { action_id := "a1", status := "completed",
                   updates := some { style_json := true } }]).invalidateMapDataCount = 1
    ∧ (processMessages { mapView := some [0, 0, 1, 1] }
        [.action { action_id := "a1", status := "active", bounds := some [0, 0, 10, 10] },
         .action { action_id := "a1", status := "completed",
                   updates := some { style_json := true } }]).activeActions = [] := by
  decide

/-- C3: when the completed event of an action arrives before its active
event (same `action_id`, neither carrying an error message), processing
the pair from any state whose active-actions list has no duplicate ids
leaves the list duplicate-free after each of the two steps: the
completed event filters every entry with the id out, so the later append
cannot create a duplicate. -/
theorem out_of_order_events_no_duplicate_ids (s : State) (c a : EphemeralAction)
    (hcst : c.status = "completed") (hast : a.status = "active")
    (hcerr : c.error_message = none) (haerr : a.error_message = none)
    (hid : a.action_id = c.action_id)
    (hnodup : (s.activeActions.map (fun x => x.action_id)).Nodup) :
    ((processMessage s (.action c)).activeActions.map (fun x => x.action_id)).Nodup
    ∧ ((processMessage (processMessage s (.action c)) (.action a)).activeActions.map
        (fun x => x.action_id)).Nodup := by
  have h1 : (processMessage s (.action c)).activeActions
      = s.activeActions.filter (fun x => x.action_id ≠ c.action_id) :=
    processMessage_completed_activeActions s c hcerr hcst
  have hndf : ((s.activeActions.filter (fun x => x.action_id ≠ c.action_id)).map
      (fun x => x.action_id)).Nodup :=
    hnodup.sublist ((List.filter_sublist _).map _)
  have hnd1 : ((processMessage s (.action c)).activeActions.map
      (fun x => x.action_id)).Nodup := by
    rw [h1]
    exact hndf
  refine ⟨hnd1, ?_⟩
  rcases processMessage_active_activeActions (processMessage s (.action c)) a haerr hast
    with h2 | h2
  · rw [h2]
    exact hnd1
  · rw [h2, h1, List.map_append, List.map_singleton, List.nodup_append]
    refine ⟨hndf, List.nodup_singleton _, ?_⟩
    intro y hy hz
    rw [List.mem_singleton] at hz
    subst hz
    rw [List.mem_map] at hy
    obtain ⟨x, hx, hxa⟩ := hy
    rw [List.mem_filter] at hx
    exact absurd (hxa.trans hid) (by simpa using hx.2)

/-- Witness for C3: from a state already holding an active "a0", the
out-of-order pair completed("a1") then active("a1") keeps the list
duplicate-free at both steps. -/
theorem out_of_order_events_no_duplicate_ids_witness :
    ((processMessage { activeActions := [{ action_id := "a0", status := "active" }] }
        (.action { action_id := "a1", status := "completed",
                   updates := some { style_json := false } })).activeActions.map
        (fun x => x.action_id)).Nodup
    ∧ ((processMessage
        (processMessage { activeActions := [{ action_id := "a0", status := "active" }] }
          (.action { action_id := "a1", status := "completed",
                     updates := some { style_json := false } }))
        (.action { action_id := "a1", status := "active" })).activeActions.map
        (fun x => x.action_id)).Nodup :=
  out_of_order_events_no_duplicate_ids
    { activeActions := [{ action_id := "a0", status := "active" }] }
    { action_id := "a1", status := "completed", updates := some { style_json := false } }
    { action_id := "a1", status := "active" }
    rfl rfl rfl rfl rfl (by decide)

/-- C5: `addError` never duplicates a live entry with the same message —
while one is present the add is a complete no-op — and a fresh entry is
scheduled for removal 30 seconds (30000 ms) after creation: the add
registers a timer at `now + 30000` for the new entry id, and the timer
callback removes every entry bearing that id from whatever error list is
current when it fires. -/
theorem error_dedup_and_timeout :
    (∀ (s : State) (M : String) (o : Bool),
        (∃ e ∈ s.errors, e.message = M) → addError s M o = s)
    ∧ (∀ (s : State) (M : String) (o : Bool),
        (¬ ∃ e ∈ s.errors, e.message = M) →
          ∃ e, e ∈ (addError s M o).errors ∧ e.message = M
            ∧ (s.now + 30000, e.id) ∈ (addError s M o).timers
            ∧ ∀ s2 : State, ∀ x ∈ (errorTimeout s2 e.id).errors, x.id ≠ e.id) := by
  constructor
  · intro s M o h
    unfold addError
    rw [if_pos h]
  · intro s M o h
    refine ⟨{ id := s.nextId, message := M, timestamp := s.now,
              shouldOverrideMessages := o }, ?_, rfl, ?_, ?_⟩
    · unfold addError
      rw [if_neg h]
      simp
    · unfold addError
      rw [if_neg h]
      simp
    · intro s2 x hx
      unfold errorTimeout at hx
      simp only [List.mem_filter, decide_eq_true_eq] at hx
      exact hx.2

/-- Witness for C5: adding "dup" onto a state already holding a "dup"
entry is a no-op, and adding "m" to the empty state creates an entry
scheduled for removal at 30000 ms whose timer callback removes it. -/
theorem error_dedup_and_timeout_witness :
    addError { errors := [{ id := 7, message := "dup", timestamp := 0,
                            shouldOverrideMessages := false }] } "dup" true
      = { errors := [{ id := 7, message := "dup", timestamp := 0,
                       shouldOverrideMessages := false }] }
    ∧ ∃ e, e ∈ (addError { } "m" false).errors ∧ e.message = "m"
        ∧ (({ } : State).now + 30000, e.id) ∈ (addError { } "m" false).timers
        ∧ ∀ s2 : State, ∀ x ∈ (errorTimeout s2 e.id).errors, x.id ≠ e.id :=
  ⟨error_dedup_and_timeout.1 _ "dup" true (by decide),
   error_dedup_and_timeout.2 { } "m" false (by decide)⟩

/-- C10: a completed ephemeral action whose `updates` field is absent
still removes the matching action from the active-actions list (the
filter was enqueued before the failing access), then the read of
`updates.style_json` throws and the surrounding catch adds the generic
"Failed to process update from server." entry — the map-document cache
is not invalidated, and the reconciler (a total step function) keeps
processing later messages. -/
theorem completed_without_updates_caught (s : State) (a : EphemeralAction)
    (herr : a.error_message = none) (hst : a.status = "completed")
    (hupd : a.updates = none) :
    processMessage s (.action a)
      = addError
          { s with activeActions :=
              s.activeActions.filter (fun x => x.action_id ≠ a.action_id) }
          "Failed to process update from server." false
    ∧ (processMessage s (.action a)).invalidateMapDataCount = s.invalidateMapDataCount
    ∧ ((¬ ∃ e ∈ s.errors, e.message = "Failed to process update from server.") →
        ∃ e ∈ (processMessage s (.action a)).errors,
          e.message = "Failed to process update from server.") := by
  have h : processMessage s (.action a)
      = addError
          { s with activeActions :=
              s.activeActions.filter (fun x => x.action_id ≠ a.action_id) }
          "Failed to process update from server." false := by
    simp only [processMessage]
    rw [herr]
    simp only [truthyStr, Bool.false_eq_true, if_false]
    rw [zoomStep_not_active s a (by simp [hst])]
    unfold stateStatusEffects
    rw [hst, hupd]
    simp
  refine ⟨h, ?_, ?_⟩
  · rw [h, addError_invalidateMapDataCount]
  · intro hno
    rw [h]
    unfold addError
    rw [if_neg (by simpa using hno)]
    simp only [List.mem_append, List.mem_singleton]
    exact ⟨_, Or.inr rfl, rfl⟩

/-- Witness for C10: a completed "a1" without `updates` empties the
active list, leaves the invalidation count at 0, and surfaces the
generic error entry. -/
theorem completed_without_updates_caught_witness :
    (processMessage { activeActions := [{ action_id := "a1", status := "active" }] }
        (.action { action_id := "a1", status := "completed" })).invalidateMapDataCount = 0
    ∧ ∃ e ∈ (processMessage { activeActions := [{ action_id := "a1", status := "active" }] }
          (.action { action_id := "a1", status := "completed" })).errors,
        e.message = "Failed to process update from server." := by
  have h := completed_without_updates_caught
    { activeActions := [{ action_id := "a1", status := "active" }] }
    { action_id := "a1", status := "completed" } rfl rfl rfl
  exact ⟨by simpa using h.2.1, h.2.2 (by decide)⟩

/-- C6 counterexample: dropping a single 600MB file leaves the upload
queue unchanged and produces exactly one notification, but that
notification is the too-large message: it does not contain the permitted
extensions (".geojson" does not occur in it) and differs from the
extension-listing message that only type-based rejections produce. -/
theorem oversize_toast_lists_no_extensions_counterexample :
    (onDrop { } [{ name := "big.tif", size := 600 * 1024 * 1024 }]).uploadingFiles = []
    ∧ (onDrop { } [{ name := "big.tif", size := 600 * 1024 * 1024 }]).toasts
        = [sizeToastMessage "big.tif"]
    ∧ ¬ (".geojson".data <:+: (sizeToastMessage "big.tif").data)
    ∧ sizeToastMessage "big.tif" ≠ rejectedToastMessage "big.tif" := by
  decide

/-- C6 (amended): a dropped file over 500MB is rejected before entering
the upload queue — the uploading-files list is unchanged — with exactly
one user-visible notification stating the file is too large (the
notification listing permitted extensions belongs to type-based
rejections handled by `onDropRejected`); a file at or under the limit
enters the queue at progress 0 with status "uploading". -/
theorem oversize_rejected_before_queue (s : UploadState) (f : DroppedFile)
    (hv : s.hasVersionId = true) :
    (maxFileSize < f.size →
        (onDrop s [f]).uploadingFiles = s.uploadingFiles
        ∧ (onDrop s [f]).toasts = s.toasts ++ [sizeToastMessage f.name])
    ∧ (¬ maxFileSize < f.size →
        (onDrop s [f]).uploadingFiles = s.uploadingFiles
          ++ [{ id := s.nextId, fileName := f.name, progress := 0, status := "uploading" }]
        ∧ (onDrop s [f]).toasts = s.toasts) := by
  constructor
  · intro hbig
    unfold onDrop
    rw [hv]
    simp [List.filter, hbig, (by omega : ¬ ¬ maxFileSize < f.size)]
  · intro hsmall
    unfold onDrop
    rw [hv]
    simp [List.filter, hsmall, List.enum]

/-- Witness for C6: a 600MB file is turned away with the too-large toast
while a 10MB file enters the queue at progress 0, status "uploading". -/
theorem oversize_rejected_before_queue_witness :
    (onDrop { } [{ name := "big.tif", size := 600 * 1024 * 1024 }]).uploadingFiles = []
    ∧ (onDrop { } [{ name := "small.tif", size := 10 * 1024 * 1024 }]).uploadingFiles
        = [{ id := 0, fileName := "small.tif", progress := 0, status := "uploading" }] := by
  have hbig := (oversize_rejected_before_queue { }
    { name := "big.tif", size := 600 * 1024 * 1024 } rfl).1 (by decide)
  have hsmall := (oversize_rejected_before_queue { }
    { name := "small.tif", size := 10 * 1024 * 1024 } rfl).2 (by decide)
  exact ⟨by simpa using hbig.1, by simpa using hsmall.1⟩

/-- C7: for a polled connection record with no (truthy) error text that
is not yet documented, the rendered phase is "Connecting..." when both
counts (defaulted to 0) are 0, "Querying tables..." when the processed
count is below the table count, and "Summarizing..." when the processed
count has reached the table count and the counts are not both zero. -/
theorem connection_phase_inference (c : PostgresConnectionDetails)
    (herr : truthyStr c.last_error_text = false)
    (hdoc : c.is_documented = false) :
    (c.processed_tables_count.getD 0 = 0 ∧ c.table_count.getD 0 = 0 →
        sourcePhase c = some "Connecting...")
    ∧ (c.processed_tables_count.getD 0 < c.table_count.getD 0 →
        sourcePhase c = some "Querying tables...")
    ∧ (c.table_count.getD 0 ≤ c.processed_tables_count.getD 0
        ∧ ¬ (c.processed_tables_count.getD 0 = 0 ∧ c.table_count.getD 0 = 0) →
        sourcePhase c = some "Summarizing...") := by
  refine ⟨?_, ?_, ?_⟩ <;> intro h
  · simp [sourcePhase, herr, hdoc, phaseLabel, h.1, h.2]
  · have hne : ¬ (c.processed_tables_count.getD 0 = 0 ∧ c.table_count.getD 0 = 0) := by
      omega
    simp [sourcePhase, herr, hdoc, phaseLabel, hne, h]
  · simp [sourcePhase, herr, hdoc, phaseLabel, h.2, Nat.not_lt.mpr h.1]

/-- A connection record midway through querying its tables. -/
def queryingConnection : PostgresConnectionDetails :=
  { is_documented := false, processed_tables_count := some 2, table_count := some 5 }

/-- A connection record that has processed every table. -/
def summarizingConnection : PostgresConnectionDetails :=
  { is_documented := false, processed_tables_count := some 5, table_count := some 5 }

/-- Witness for C7 covering all three phases at concrete records. -/
theorem connection_phase_inference_witness :
    sourcePhase { is_documented := false } = some "Connecting..."
    ∧ sourcePhase queryingConnection = some "Querying tables..."
    ∧ sourcePhase summarizingConnection = some "Summarizing..." :=
  ⟨(connection_phase_inference { is_documented := false } rfl rfl).1 (by decide),
   (connection_phase_inference queryingConnection rfl rfl).2.1 (by decide),
   (connection_phase_inference summarizingConnection rfl rfl).2.2 (by decide)⟩

/-- C8: the reconnect delay follows the configured backoff ladder 30ms,
1s, 5s, 15s, 50s indexed by the attempt count, holds at the last entry
(50s) for every later attempt, and the number of reconnection attempts
is bounded by the finite `reconnectAttempts` = 2880. -/
theorem reconnect_backoff_ladder :
    reconnectInterval 0 = 30 ∧ reconnectInterval 1 = 1000 ∧ reconnectInterval 2 = 5000
    ∧ reconnectInterval 3 = 15000 ∧ reconnectInterval 4 = 50000
    ∧ (∀ n, 4 ≤ n → reconnectInterval n = 50000)
    ∧ reconnectAttempts = 2880 := by
  refine ⟨rfl, rfl, rfl, rfl, rfl, ?_, rfl⟩
  intro n hn
  unfold reconnectInterval backoffMs
  have hmin : min n ([30, 1000, 5000, 15000, 50000].length - 1) = 4 := by
    simp only [List.length_cons, List.length_nil]
    omega
  rw [hmin]
  rfl

/-- Witness for C8 at attempt 100: the delay holds at 50s. -/
theorem reconnect_backoff_ladder_witness : reconnectInterval 100 = 50000 :=
  reconnect_backoff_ladder.2.2.2.2.2.1 100 (by decide)

end BloomWatch
